import Mathlib

/-!
Verification of the CAD-to-JSON conversion core of the `3d-resume` repository
(`src/three_d_resume/step_to_json.py`).  The Python functions are shallowly
embedded as executable Lean definitions: duck-typed shape handles become an
inductive `Shape` over an opaque topology tree `Topo`; the external exporter is
an oracle parameter; fallible code returns `Option`/`Except`; file writes are
recorded explicitly in the conversion outcome.
-/

set_option maxRecDepth 4000

namespace StepToJson

/-- The `TopAbs` shape-kind enumeration of the OCCT topology facility, as far
as the converter inspects it (`TopAbs.TopAbs_COMPOUND` comparisons and the
exploration kinds). -/
inductive TopAbsKind : Type where
  | COMPOUND
  | COMPSOLID
  | SOLID
  | SHELL
  | FACE
  | SHAPE
  | OTHER
deriving DecidableEq, Repr

/-- Model of a raw `TopoDS` topology object as the converter observes it:
the result of the `isinstance(_, TopoDS_Compound)` check, the optional
`ShapeType()` attribute, the runtime type name (`type(t).__name__`), and the
children that `TopExp_Explorer` enumeration (`_collect_from`) yields for each
of the five kinds the code asks for.  The enumeration results are opaque data
of the external OCCT collaborator; the converter's control flow over them is
what is embedded. -/
inductive Topo : Type where
  | node :
      (isCompoundInst : Bool) →
      (shapeTypeAttr : Option TopAbsKind) →
      (typeName : String) →
      (solids : List Topo) →
      (compsolids : List Topo) →
      (shells : List Topo) →
      (faces : List Topo) →
      (compounds : List Topo) →
      Topo

/-- Result of `isinstance(t, TopoDS_Compound)`. -/
def Topo.isCompoundInst : Topo → Bool
  | .node ic _ _ _ _ _ _ _ => ic

/-- The `ShapeType()` attribute; `none` models `hasattr(t, "ShapeType") = False`. -/
def Topo.shapeTypeAttr : Topo → Option TopAbsKind
  | .node _ st _ _ _ _ _ _ => st

/-- Embeds `type(t).__name__`. -/
def Topo.typeName : Topo → String
  | .node _ _ tn _ _ _ _ _ => tn

/-- Embeds `_collect_from(t, TopAbs_SOLID)`. -/
def Topo.solids : Topo → List Topo
  | .node _ _ _ s _ _ _ _ => s

/-- Embeds `_collect_from(t, TopAbs_COMPSOLID)`. -/
def Topo.compsolids : Topo → List Topo
  | .node _ _ _ _ cs _ _ _ => cs

/-- Embeds `_collect_from(t, TopAbs_SHELL)`. -/
def Topo.shells : Topo → List Topo
  | .node _ _ _ _ _ sh _ _ => sh

/-- Embeds `_collect_from(t, TopAbs_FACE)`. -/
def Topo.faces : Topo → List Topo
  | .node _ _ _ _ _ _ f _ => f

/-- Embeds `_collect_from(t, TopAbs_COMPOUND)`. -/
def Topo.compounds : Topo → List Topo
  | .node _ _ _ _ _ _ _ c => c

/-- Model of a Python shape handle as the converter's duck typing observes it:
an optional `wrapped` attribute (build123d/cadquery shapes wrap a raw
`TopoDS`), the behaviour of the object itself when used as a topology object
(`getattr(s, "wrapped", s)` falls back to the object itself), an optional
`objects` container attribute (cadquery `Workplane`), and optional callable
`Solids()` / `solids()` enumeration attributes. -/
inductive Shape : Type where
  | mk :
      (wrapped : Option Topo) →
      (selfAsTopo : Topo) →
      (objects : Option (List Shape)) →
      (solidsUpper : Option (List Shape)) →
      (solidsLower : Option (List Shape)) →
      Shape

def Shape.wrapped : Shape → Option Topo
  | .mk w _ _ _ _ => w

def Shape.selfAsTopo : Shape → Topo
  | .mk _ t _ _ _ => t

def Shape.objects : Shape → Option (List Shape)
  | .mk _ _ o _ _ => o

def Shape.solidsUpper : Shape → Option (List Shape)
  | .mk _ _ _ su _ => su

def Shape.solidsLower : Shape → Option (List Shape)
  | .mk _ _ _ _ sl => sl

/-- Embeds `getattr(shape, "wrapped", shape)`. -/
def Shape.topo (s : Shape) : Topo := s.wrapped.getD s.selfAsTopo

/-- A raw `TopoDS` object used as a shape handle (no `wrapped`, no container
attributes); this is what `_collect_from` results are. -/
def Shape.ofTopo (t : Topo) : Shape := .mk none t none none none

/-! ### `_explode_compound_to_supported` -/

mutual

/-- The search part of `_explode_compound_to_supported` applied to a raw
topology object, in source order: direct `Solid` children; else `Solid`
children of `CompSolid` children; else `Shell` children; else `Face`
children; else recursive explosion of nested `Compound` children.  `none`
models falling through to the final `return [shape]` fallback. -/
def explodeCore : Topo → Option (List Topo)
  | .node _ic _st _tn solids compsolids shells faces compounds =>
    if !solids.isEmpty then some solids
    else
      let solidsNested := compsolids.map Topo.solids |>.flatten
      if !solidsNested.isEmpty then some solidsNested
      else if !shells.isEmpty then some shells
      else if !faces.isEmpty then some faces
      else
        let parts := explodeTopoList compounds
        if parts.isEmpty then none else some parts

/-- Embeds `for c in compounds: parts.extend(_explode_compound_to_supported(c))`,
where each `c` is a raw topology object (so the fallback returns `[c]`). -/
def explodeTopoList : List Topo → List Topo
  | [] => []
  | c :: cs => ((explodeCore c).getD [c]) ++ explodeTopoList cs

end

/-- Embeds `_explode_compound_to_supported(shape)`: identity when the OCCT facility
is unavailable; otherwise runs the search on `getattr(shape, "wrapped",
shape)` and falls back to `[shape]` when nothing was found. -/
def explodeCompoundToSupported (ocpAvail : Bool) (s : Shape) : List Shape :=
  if ocpAvail then
    match explodeCore s.topo with
    | some parts => parts.map Shape.ofTopo
    | none => [s]
  else [s]

/-- Embeds `_flatten_shapes(shapes)`. -/
def flattenShapes (ocpAvail : Bool) (shapes : List Shape) : List Shape :=
  (shapes.map (explodeCompoundToSupported ocpAvail)).flatten

/-- Embeds `_looks_like_compound(obj)`: with OCCT available, `isinstance` check, then
`ShapeType() == TopAbs_COMPOUND`, then the type-name fallback; without OCCT
only the type-name fallback. -/
def looksLikeCompound (ocpAvail : Bool) (s : Shape) : Bool :=
  let t := s.topo
  if ocpAvail then
    if t.isCompoundInst then true
    else if t.shapeTypeAttr = some TopAbsKind.COMPOUND then true
    else t.typeName = "TopoDS_Compound"
  else t.typeName = "TopoDS_Compound"

/-- The pre-export flattening loop of `convert_step_to_json`
(`for _ in range(5): if any(_looks_like_compound(s) for s in shapes): shapes =
_flatten_shapes(shapes) else: break`), with the remaining iteration budget as
fuel (invoked with fuel 5). -/
def flattenLoop (ocpAvail : Bool) : Nat → List Shape → List Shape
  | 0, shapes => shapes
  | n + 1, shapes =>
    if shapes.any (looksLikeCompound ocpAvail) then
      flattenLoop ocpAvail n (flattenShapes ocpAvail shapes)
    else shapes

/-- Number of flattening passes the loop performs. -/
def flattenLoopCount (ocpAvail : Bool) : Nat → List Shape → Nat
  | 0, _ => 0
  | n + 1, shapes =>
    if shapes.any (looksLikeCompound ocpAvail) then
      flattenLoopCount ocpAvail n (flattenShapes ocpAvail shapes) + 1
    else 0

/-! ### `_to_sequence` and `_normalize_cad_objects` -/

/-- The Python value an importer backend returns: `None`, a single handle, or
a `list`/`tuple` of handles. -/
inductive ImportedObj : Type where
  | nothing
  | single (s : Shape)
  | seq (ss : List Shape)

/-- Embeds `_to_sequence(shapes_obj)`. -/
def toSequence : ImportedObj → List Shape
  | .nothing => []
  | .single s => [s]
  | .seq ss => ss

/-- The body of the `_normalize_cad_objects` loop for one element: expand a
non-empty `objects` attribute, else a non-empty list result of `Solids()`,
else a non-empty list result of `solids()`, else keep the element.  An
absent or non-list attribute falls through to the next check exactly as the
`isinstance`-guarded Python does. -/
def normalizeOne (s : Shape) : List Shape :=
  match s.objects with
  | some objs =>
    if !objs.isEmpty then objs
    else
      match s.solidsUpper with
      | some sols =>
        if !sols.isEmpty then sols
        else
          match s.solidsLower with
          | some sols2 => if !sols2.isEmpty then sols2 else [s]
          | none => [s]
      | none =>
        match s.solidsLower with
        | some sols2 => if !sols2.isEmpty then sols2 else [s]
        | none => [s]
  | none =>
    match s.solidsUpper with
    | some sols =>
      if !sols.isEmpty then sols
      else
        match s.solidsLower with
        | some sols2 => if !sols2.isEmpty then sols2 else [s]
        | none => [s]
    | none =>
      match s.solidsLower with
      | some sols2 => if !sols2.isEmpty then sols2 else [s]
      | none => [s]

/-- Embeds `_normalize_cad_objects(shapes)`. -/
def normalizeCadObjects (shapes : List Shape) : List Shape :=
  (shapes.map normalizeOne).flatten

/-! ### Substring test (Python `needle in msg`) -/

/-- Tests whether `needle` occurs at the start of `hay`. -/
def leadsWith : List Char → List Char → Bool
  | [], _ => true
  | _ :: _, [] => false
  | a :: as_, b :: bs => a = b && leadsWith as_ bs

/-- Tests whether `needle` occurs somewhere in `hay` (Python `needle in hay`). -/
def containsSub (needle : List Char) : List Char → Bool
  | [] => needle.isEmpty
  | hay@(_ :: t) => leadsWith needle hay || containsSub needle t

def strContainsSub (needle hay : String) : Bool :=
  containsSub needle.toList hay.toList

/-! ### Export adapter -/

/-- Result of one invocation of the external
`export_three_cad_viewer_js` collaborator: success (with the text it wrote to
the requested file), a `TypeError` (the tolerance keywords are not accepted),
or any other exception carrying its message `str(e)`. -/
inductive ExpResult : Type where
  | ok (content : String)
  | typeErr (msg : String)
  | err (msg : String)

/-- The exporter oracle. `call k withTol shapes names` is invocation number
`k` (0-based count of prior invocations), with or without the
`angular_tolerance`/`linear_tolerance` keywords, on the given positional
shapes and `names` list. -/
structure ExporterM : Type where
  call : Nat → Bool → List Shape → List String → ExpResult

/-- Embeds `names = [f"{base}_{i}" for i in range(len(shapes))]`. -/
def mkNames (base : String) (n : Nat) : List String :=
  (List.range n).map (fun i => base ++ "_" ++ toString i)

/-- One export attempt (`try: ...tolerances... except TypeError: ...bare...`):
call with tolerances; if that raises `TypeError`, call without; any other
failure, or a failure of the second call, escapes with its message.  Returns
the outcome together with the argument list of each exporter invocation made
(`k` is the number of prior invocations). -/
def tryExportBoth (E : ExporterM) (k : Nat) (shapes : List Shape)
    (names : List String) : Except String String × List (List Shape × List String) :=
  match E.call k true shapes names with
  | .ok c => (.ok c, [(shapes, names)])
  | .typeErr _ =>
    match E.call (k + 1) false shapes names with
    | .ok c => (.ok c, [(shapes, names), (shapes, names)])
    | .typeErr m => (.error m, [(shapes, names), (shapes, names)])
    | .err m => (.error m, [(shapes, names), (shapes, names)])
  | .err m => (.error m, [(shapes, names)])

/-- The recovery block of the export section (lines 367–394): re-explode
every element of the current sequence (`retry_shapes`), and if that is
non-empty rebuild the name list and retry both calling conventions once — a
failing retry propagates its own error (`except Exception: raise`) — while an
empty re-exploded sequence re-raises the original error `msg`.  `tr` is the
invocation trace accumulated so far. -/
def exportRetryPass (E : ExporterM) (ocpAvail : Bool) (base : String)
    (shapes : List Shape) (msg : String) (tr : List (List Shape × List String)) :
    Except String String × List (List Shape × List String) × List Shape :=
  if !((shapes.map (explodeCompoundToSupported ocpAvail)).flatten).isEmpty then
    match tryExportBoth E tr.length ((shapes.map (explodeCompoundToSupported ocpAvail)).flatten)
        (mkNames base ((shapes.map (explodeCompoundToSupported ocpAvail)).flatten).length) with
    | (.ok c, tr2) =>
      (.ok c, tr ++ tr2, (shapes.map (explodeCompoundToSupported ocpAvail)).flatten)
    | (.error m2, tr2) =>
      (.error m2, tr ++ tr2, (shapes.map (explodeCompoundToSupported ocpAvail)).flatten)
  else (.error msg, tr, shapes)

/-- The export section of `convert_step_to_json` (lines 344–396): initial
attempt; if it fails with a message containing `"TopoDS_Compound"` or
`"Compound"`, one recovery pass (`exportRetryPass`); any other failure
propagates.  Returns the outcome, the trace of exporter invocations, and the
shape sequence in use at the end. -/
def exportWithRetry (E : ExporterM) (ocpAvail : Bool) (base : String)
    (shapes : List Shape) :
    Except String String × List (List Shape × List String) × List Shape :=
  match tryExportBoth E 0 shapes (mkNames base shapes.length) with
  | (.ok c, tr) => (.ok c, tr, shapes)
  | (.error msg, tr) =>
    if strContainsSub "TopoDS_Compound" msg || strContainsSub "Compound" msg then
      exportRetryPass E ocpAvail base shapes msg tr
    else (.error msg, tr, shapes)

/-! ### JSON documents and `json.loads`

The document model mirrors what `json.loads` produces: objects are ordered
key/value lists with CPython `dict` insertion semantics (a duplicate key
updates the value in place, keeping the original position, so keys are unique
by construction).  Numerals are embedded for integer literals only; no input
this development evaluates contains a non-integer numeral. -/

inductive Json : Type where
  | null
  | bool (b : Bool)
  | num (n : Int)
  | str (s : String)
  | arr (elems : List Json)
  | obj (fields : List (String × Json))

/-- JSON whitespace (the characters `json.loads` skips). -/
def isJsonWs (c : Char) : Bool :=
  c = ' ' || c = '\t' || c = '\n' || c = '\r'

def skipWs (cs : List Char) : List Char := cs.dropWhile isJsonWs

/-- CPython `dict` insertion: update the value at an existing key in place,
else append. -/
def dictInsert : List (String × Json) → String → Json → List (String × Json)
  | [], k, v => [(k, v)]
  | f :: fs, k, v => if f.1 = k then (k, v) :: fs else f :: dictInsert fs k v

/-- Hex digit value. -/
def hexVal (c : Char) : Option Nat :=
  if '0' ≤ c && c ≤ '9' then some (c.toNat - 48)
  else if 'a' ≤ c && c ≤ 'f' then some (c.toNat - 87)
  else if 'A' ≤ c && c ≤ 'F' then some (c.toNat - 55)
  else none

/-- Four hex digits of a `\u` escape. -/
def hex4 : List Char → Option (Nat × List Char)
  | a :: b :: c :: d :: rest =>
    match hexVal a, hexVal b, hexVal c, hexVal d with
    | some x, some y, some z, some w => some (((x * 16 + y) * 16 + z) * 16 + w, rest)
    | _, _, _, _ => none
  | _ => none

/-- JSON string body after the opening quote: standard escapes, unescaped
control characters rejected (strict mode). -/
def parseJStrAux : Nat → List Char → List Char → Option (String × List Char)
  | 0, _, _ => none
  | fuel + 1, acc, cs =>
    match cs with
    | [] => none
    | '"' :: rest => some (String.mk acc.reverse, rest)
    | '\\' :: e :: rest =>
      if e = '"' then parseJStrAux fuel ('"' :: acc) rest
      else if e = '\\' then parseJStrAux fuel ('\\' :: acc) rest
      else if e = '/' then parseJStrAux fuel ('/' :: acc) rest
      else if e = 'b' then parseJStrAux fuel ('\x08' :: acc) rest
      else if e = 'f' then parseJStrAux fuel ('\x0c' :: acc) rest
      else if e = 'n' then parseJStrAux fuel ('\n' :: acc) rest
      else if e = 'r' then parseJStrAux fuel ('\r' :: acc) rest
      else if e = 't' then parseJStrAux fuel ('\t' :: acc) rest
      else if e = 'u' then
        match hex4 rest with
        | some (n, rest2) => parseJStrAux fuel (Char.ofNat n :: acc) rest2
        | none => none
      else none
    | '\\' :: [] => none
    | c :: rest => if c.toNat < 0x20 then none else parseJStrAux fuel (c :: acc) rest

def parseJStr (cs : List Char) : Option (String × List Char) :=
  parseJStrAux (cs.length + 1) [] cs

def digitsToNat (ds : List Char) : Nat :=
  ds.foldl (fun n c => n * 10 + (c.toNat - 48)) 0

/-- Integer numeral: optional minus, digits, no redundant leading zero; a
following `.`/`e`/`E` (a float literal) is unsupported and rejected. -/
def parseJNum (cs : List Char) : Option (Json × List Char) :=
  let (neg, cs1) :=
    match cs with
    | '-' :: rest => (true, rest)
    | _ => (false, cs)
  let ds := cs1.takeWhile Char.isDigit
  let rest := cs1.dropWhile Char.isDigit
  if ds.isEmpty then none
  else if ds.length > 1 && ds.headD '0' = '0' then none
  else
    match rest with
    | '.' :: _ => none
    | 'e' :: _ => none
    | 'E' :: _ => none
    | _ =>
      let n : Int := Int.ofNat (digitsToNat ds)
      some (Json.num (if neg then -n else n), rest)

mutual

/-- One JSON value (strict grammar as accepted by `json.loads`). -/
def parseJValue : Nat → List Char → Option (Json × List Char)
  | 0, _ => none
  | fuel + 1, cs0 =>
    let cs := skipWs cs0
    match cs with
    | [] => none
    | '"' :: rest => (parseJStr rest).map (fun p => (Json.str p.1, p.2))
    | '{' :: rest => parseJObjMembers fuel true [] (skipWs rest)
    | '[' :: rest => parseJArrElems fuel true [] (skipWs rest)
    | _ =>
      if leadsWith "true".toList cs then some (Json.bool true, cs.drop 4)
      else if leadsWith "false".toList cs then some (Json.bool false, cs.drop 5)
      else if leadsWith "null".toList cs then some (Json.null, cs.drop 4)
      else parseJNum cs

/-- Object members after `{` (when `first`) or after a `,`; a closing `}` is
accepted only before the first member. -/
def parseJObjMembers : Nat → Bool → List (String × Json) → List Char →
    Option (Json × List Char)
  | 0, _, _, _ => none
  | fuel + 1, first, acc, cs =>
    match cs with
    | '}' :: rest => if first then some (Json.obj acc.reverse, rest) else none
    | '"' :: rest =>
      match parseJStr rest with
      | none => none
      | some (key, cs1) =>
        match skipWs cs1 with
        | ':' :: cs2 =>
          match parseJValue fuel cs2 with
          | none => none
          | some (v, cs3) =>
            let acc2 := (dictInsert acc.reverse key v).reverse
            match skipWs cs3 with
            | ',' :: cs4 => parseJObjMembers fuel false acc2 (skipWs cs4)
            | '}' :: cs4 => some (Json.obj acc2.reverse, cs4)
            | _ => none
        | _ => none
    | _ => none

/-- Array elements after `[` (when `first`) or after a `,`. -/
def parseJArrElems : Nat → Bool → List Json → List Char →
    Option (Json × List Char)
  | 0, _, _, _ => none
  | fuel + 1, first, acc, cs =>
    match cs with
    | ']' :: rest => if first then some (Json.arr acc.reverse, rest) else none
    | _ =>
      if first && cs.isEmpty then none
      else
        match parseJValue fuel cs with
        | none => none
        | some (v, cs1) =>
          match skipWs cs1 with
          | ',' :: cs2 => parseJArrElems fuel false (v :: acc) cs2
          | ']' :: cs2 => some (Json.arr (v :: acc).reverse, cs2)
          | _ => none

end

/-- Embeds `json.loads(text)`: one value, then only trailing whitespace. -/
def jsonLoads (cs : List Char) : Option Json :=
  match parseJValue (2 * cs.length + 8) cs with
  | some (v, rest) => if (skipWs rest).isEmpty then some v else none
  | none => none

/-! ### `_parse_js_object_literal` text transforms -/

/-- Python `re` ASCII whitespace class `\s` (and the characters `str.strip`
removes on the inputs at hand). -/
def isPyWs (c : Char) : Bool :=
  c = ' ' || c = '\t' || c = '\n' || c = '\r' || c = '\x0b' || c = '\x0c'

/-- Embeds `src.strip()`. -/
def pyStrip (cs : List Char) : List Char :=
  ((cs.dropWhile isPyWs).reverse.dropWhile isPyWs).reverse

/-- Class `[a-zA-Z_$]` (JS identifier start in the prologue pattern). -/
def isJsIdentStart (c : Char) : Bool := c.isAlpha || c = '_' || c = '$'

/-- Class `[\w$]`. -/
def isJsIdentChar (c : Char) : Bool := c.isAlphanum || c = '_' || c = '$'

/-- Drop a literal keyword. -/
def dropKeyword (kw : List Char) (cs : List Char) : Option (List Char) :=
  if leadsWith kw cs then some (cs.drop kw.length) else none

/-- Matches `\s+` (one or more whitespace). -/
def matchWs1 (cs : List Char) : Option (List Char) :=
  match cs with
  | c :: rest => if isPyWs c then some (rest.dropWhile isPyWs) else none
  | [] => none

/-- Matches `(?:const|var|let)\s+[a-zA-Z_$][\w$]*\s*=\s*`, returning the remainder. -/
def matchDeclCore (cs : List Char) : Option (List Char) :=
  let kw :=
    match dropKeyword "const".toList cs with
    | some r => some r
    | none =>
      match dropKeyword "var".toList cs with
      | some r => some r
      | none => dropKeyword "let".toList cs
  match kw with
  | none => none
  | some r1 =>
    match matchWs1 r1 with
    | none => none
    | some r2 =>
      match r2 with
      | c :: r3 =>
        if isJsIdentStart c then
          let r4 := (r3.dropWhile isJsIdentChar).dropWhile isPyWs
          match r4 with
          | '=' :: r5 => some (r5.dropWhile isPyWs)
          | _ => none
        else none
      | [] => none

/-- Embeds `re.sub(r"^(?:export\s+)?(?:const|var|let)\s+[a-zA-Z_$][\w$]*\s*=\s*", "",
src)`: try the variant with the optional `export` prefix first (regex options
are greedy), then without; no match leaves the text unchanged. -/
def removePrologue (cs : List Char) : List Char :=
  let withExport :=
    match dropKeyword "export".toList cs with
    | some r1 =>
      match matchWs1 r1 with
      | some r2 => matchDeclCore r2
      | none => none
    | none => none
  match withExport with
  | some r => r
  | none =>
    match matchDeclCore cs with
    | some r => r
    | none => cs

/-- Embeds `re.sub(r";\s*$", "", src)`: remove one trailing semicolon together with
any whitespace after it (`$` also matches just before a final newline, which
the whitespace run covers). -/
def removeTrailingSemi (cs : List Char) : List Char :=
  let r := cs.reverse.dropWhile isPyWs
  match r with
  | ';' :: r2 => r2.reverse
  | _ => cs

/-- Embeds `src.find("{")`, `src.rfind("}")` and the slice `src[start : end + 1]`;
`none` is the `ValueError` branch. -/
def extractBraceSpan (cs : List Char) : Option (List Char) :=
  match cs.findIdx? (fun c => c = '{'), cs.reverse.findIdx? (fun c => c = '}') with
  | some i, some jr =>
    let j := cs.length - 1 - jr
    if j < i then none else some ((cs.take (j + 1)).drop i)
  | _, _ => none

/-- Class `[a-zA-Z_]` (bare-key start). -/
def isKeyStart (c : Char) : Bool := c.isAlpha || c = '_'

/-- Class `[a-zA-Z0-9_]`. -/
def isKeyChar (c : Char) : Bool := c.isAlphanum || c = '_'

/-- Matches `[a-zA-Z_][a-zA-Z0-9_]*\s*:` — on success returns the identifier and the
remainder after the colon (the whitespace the regex consumed is dropped, as
the replacement `\1"\2":` does). -/
def matchIdentColon (cs : List Char) : Option (List Char × List Char) :=
  match cs with
  | c :: rest =>
    if isKeyStart c then
      let ident := c :: rest.takeWhile isKeyChar
      let r1 := (rest.dropWhile isKeyChar).dropWhile isPyWs
      match r1 with
      | ':' :: r2 => some (ident, r2)
      | _ => none
    else none
  | [] => none

/-- Scanner of `re.sub(r"(?m)(^|[,{\s])([a-zA-Z_][a-zA-Z0-9_]*)\s*:",
r'\1"\2":', src)`: at each position first the zero-width `^` alternative
(start of text or right after a newline), then the one-character class
alternative; on a match the replacement is emitted and scanning resumes after
the matched colon. -/
def quoteAux : Nat → Bool → List Char → List Char
  | 0, _, cs => cs
  | fuel + 1, atLineStart, cs =>
    match cs with
    | [] => []
    | c :: rest =>
      match (if atLineStart then matchIdentColon cs else none) with
      | some (ident, r2) =>
        '"' :: (ident ++ '"' :: ':' :: quoteAux fuel false r2)
      | none =>
        if c = ',' || c = '{' || isPyWs c then
          match matchIdentColon rest with
          | some (ident, r2) =>
            c :: '"' :: (ident ++ '"' :: ':' :: quoteAux fuel false r2)
          | none => c :: quoteAux fuel (c = '\n') rest
        else c :: quoteAux fuel (c = '\n') rest

def quoteBareKeys (cs : List Char) : List Char := quoteAux cs.length true cs

/-- Scanner of `re.sub(r",\s*([}\]])", r"\1", src)`: a comma, optional
whitespace, and a closing bracket collapse to the bracket; scanning resumes
after the bracket. -/
def removeCommasAux : Nat → List Char → List Char
  | 0, cs => cs
  | fuel + 1, cs =>
    match cs with
    | [] => []
    | ',' :: rest =>
      match rest.dropWhile isPyWs with
      | b :: r2 =>
        if b = '}' || b = ']' then b :: removeCommasAux fuel r2
        else ',' :: removeCommasAux fuel rest
      | [] => ',' :: removeCommasAux fuel rest
    | c :: rest => c :: removeCommasAux fuel rest

def removeTrailingCommas (cs : List Char) : List Char :=
  removeCommasAux cs.length cs

/-- Embeds `_parse_js_object_literal(text)`; `none` covers both the explicit
`ValueError` and a `json.loads` failure. -/
def parseJsObjectLiteral (text : String) : Option Json :=
  let src := pyStrip text.toList
  let src := removePrologue src
  let src := removeTrailingSemi src
  match extractBraceSpan src with
  | none => none
  | some core =>
    let q := quoteBareKeys core
    let r := removeTrailingCommas q
    jsonLoads r

/-! ### Color override pass -/

/-- First binding of a key in an object document (`dict` lookup; keys of a
`json.loads` result are unique). -/
def jGet : Json → String → Option Json
  | .obj fields, k => (fields.find? (fun f => f.1 = k)).map Prod.snd
  | _, _ => none

/-- Key list of an object document. -/
def jKeys : Json → List String
  | .obj fields => fields.map Prod.fst
  | _ => []

/-- Embeds `isinstance(p, dict) and "color" in p`. -/
def hasColorKey : Json → Bool
  | .obj fields => fields.any (fun f => f.1 = "color")
  | _ => false

/-- Embeds `if "color" in p: p["color"] = color` for one `parts` entry `p`
(non-`dict` entries are skipped by the `isinstance` guard). -/
def overridePart (color : String) : Json → Json
  | .obj fields =>
    if fields.any (fun f => f.1 = "color") then
      .obj (fields.map (fun f => if f.1 = "color" then (f.1, Json.str color) else f))
    else .obj fields
  | p => p

/-- Replace the value at the first occurrence of a key. -/
def updateFirst : List (String × Json) → String → Json → List (String × Json)
  | [], _, _ => []
  | f :: fs, k, v => if f.1 = k then (f.1, v) :: fs else f :: updateFirst fs k v

/-- The body inside the `try` of the color-override block:
`for p in data.get("parts", []): if isinstance(p, dict) and "color" in p:
p["color"] = color`.  The exceptional outcomes are explicit: a non-`dict`
document raises `AttributeError` on `.get`; a `parts` value that is a number,
boolean or `null` raises `TypeError` when iterated; a missing `parts` key
iterates the `[]` default, and a string or `dict` value iterates its
characters respectively keys, none of which pass the `isinstance` guard, so
the document is unchanged. -/
def colorPassTry (color : String) (data : Json) : Except String Json :=
  match data with
  | .obj fields =>
    match jGet data "parts" with
    | none => .ok data
    | some (.arr ps) =>
      .ok (.obj (updateFirst fields "parts" (.arr (ps.map (overridePart color)))))
    | some (.str _) => .ok data
    | some (.obj _) => .ok data
    | some _ => .error "TypeError: object is not iterable"
  | _ => .error "AttributeError: object has no attribute get"

/-- The color-override block of `convert_step_to_json` (`if color: try: ...
except Exception: pass`): a falsy override (absent or empty) skips the pass,
and any exception inside it is absorbed, leaving the document unchanged. -/
def colorApplied (color : Option String) (data : Json) : Json :=
  match color with
  | none => data
  | some col =>
    if col = "" then data
    else
      match colorPassTry col data with
      | .ok d => d
      | .error _ => data

/-! ### `convert_step_to_json` -/

/-- Embeds `os.path.basename`. -/
def pathBase (cs : List Char) : List Char :=
  (cs.reverse.takeWhile (fun c => c ≠ '/')).reverse

/-- Embeds `os.path.splitext(b)[0]`: split at the last dot, leading dots of the
basename never counting as an extension separator. -/
def splitExtStem (b : List Char) : List Char :=
  let lead := b.takeWhile (fun c => c = '.')
  let rest := b.drop lead.length
  if rest.any (fun c => c = '.') then
    lead ++ ((rest.reverse.dropWhile (fun c => c ≠ '.')).drop 1).reverse
  else b

/-- Embeds `os.path.splitext(os.path.basename(input_path))[0]`. -/
def pathStem (p : String) : String :=
  (splitExtStem (pathBase p.toList)).asString

/-- The exceptions `convert_step_to_json` can raise, keyed by origin. -/
inductive ConvError : Type where
  | noImporter (msg : String)
  | missingTessellate (msg : String)
  | noShapes (msg : String)
  | exportError (msg : String)
  | parseError

/-- The environment of one conversion: the backend-probe result
(`_try_import_builders`, `none` modelling `(None, None)`), availability of
`ocp_tessellate.convert.export_three_cad_viewer_js`, availability of the OCP
exploration facility, and the exporter oracle. -/
structure ConvEnv : Type where
  builders : Option (String → ImportedObj)
  tessellateAvailable : Bool
  ocpAvail : Bool
  exporter : ExporterM

/-- Observable outcome of `convert_step_to_json`: the returned document or the
raised exception, every invocation of the external exporter (shapes and names
passed), and every write to a non-temporary output file (path and document). -/
structure ConvOutcome : Type where
  result : Except ConvError Json
  exporterCalls : List (List Shape × List String)
  fileWrites : List (String × Json)

/-- Embeds `convert_step_to_json(input_path, output_path, model_name=…, color=…)`:
backend check, tessellate-import check, import, `_to_sequence`,
`_normalize_cad_objects`, the bounded flattening loop, empty-input check,
export with the single compound retry, `_parse_js_object_literal`, color
override, output write. -/
def convertStepToJson (env : ConvEnv) (inputPath outputPath : String)
    (modelName : Option String) (color : Option String) : ConvOutcome :=
  match env.builders with
  | none =>
    { result := .error (.noImporter
        "No CAD importer found. Please install either 'build123d' or 'cadquery'.")
      exporterCalls := []
      fileWrites := [] }
  | some importer =>
    if !env.tessellateAvailable then
      { result := .error (.missingTessellate
          "Missing dependency 'ocp-tessellate'. Install with: pip install ocp-tessellate")
        exporterCalls := []
        fileWrites := [] }
    else
      let original := toSequence (importer inputPath)
      let shapes0 := normalizeCadObjects original
      let shapes := flattenLoop env.ocpAvail 5 shapes0
      if shapes.isEmpty then
        { result := .error (.noShapes ("No shapes found in input file: " ++ inputPath))
          exporterCalls := []
          fileWrites := [] }
      else
        let base :=
          match modelName with
          | some m => if m = "" then pathStem inputPath else m
          | none => pathStem inputPath
        match exportWithRetry env.exporter env.ocpAvail base shapes with
        | (.error m, tr, _) =>
          { result := .error (.exportError m), exporterCalls := tr, fileWrites := [] }
        | (.ok jsText, tr, _) =>
          match parseJsObjectLiteral jsText with
          | none => { result := .error .parseError, exporterCalls := tr, fileWrites := [] }
          | some data =>
            let final := colorApplied color data
            { result := .ok final
              exporterCalls := tr
              fileWrites := [(outputPath, final)] }

/-! ### Concrete sample data for witnesses -/

/-- A primitive (non-compound) topology object. -/
def sampleSolidTopo : Topo := .node false (some .SOLID) "TopoDS_Solid" [] [] [] [] []

def sampleSolid : Shape := .ofTopo sampleSolidTopo

/-- A compound topology object with two solid children. -/
def sampleCompoundTopo : Topo :=
  .node true (some .COMPOUND) "TopoDS_Compound" [sampleSolidTopo, sampleSolidTopo] [] [] [] []

def sampleCompound : Shape := .ofTopo sampleCompoundTopo

/-! ### Theorems -/

theorem flattenLoopCount_le (ocp : Bool) :
    ∀ (n : Nat) (shapes : List Shape), flattenLoopCount ocp n shapes ≤ n
  | 0, _ => Nat.le_refl 0
  | n + 1, shapes => by
    unfold flattenLoopCount
    split
    · exact Nat.succ_le_succ (flattenLoopCount_le ocp n _)
    · exact Nat.zero_le _

theorem flattenLoop_eq_iterate (ocp : Bool) :
    ∀ (n : Nat) (shapes : List Shape),
      flattenLoop ocp n shapes = (flattenShapes ocp)^[flattenLoopCount ocp n shapes] shapes
  | 0, _ => rfl
  | n + 1, shapes => by
    unfold flattenLoop flattenLoopCount
    split
    · rw [flattenLoop_eq_iterate ocp n (flattenShapes ocp shapes),
        Function.iterate_succ_apply]
    · rfl

theorem flattenLoop_post (ocp : Bool) :
    ∀ (n : Nat) (shapes : List Shape),
      (flattenLoop ocp n shapes).any (looksLikeCompound ocp) = false ∨
        flattenLoopCount ocp n shapes = n
  | 0, _ => Or.inr rfl
  | n + 1, shapes => by
    unfold flattenLoop flattenLoopCount
    split
    · rcases flattenLoop_post ocp n (flattenShapes ocp shapes) with h2 | h2
      · exact Or.inl h2
      · exact Or.inr (by rw [h2])
    · rename_i h
      exact Or.inl (Bool.eq_false_iff.mpr h)

/-- Claim C1: The pre-export flattening loop of `convert_step_to_json` performs
at most 5 flattening passes; it stops early (leaving the sequence untouched)
as soon as no element classifies as compound under `_looks_like_compound`
(the code's only compound/comp-solid classifier); and after the loop either
no element classifies as compound, or all 5 passes were spent, in which case
the result is exactly the 5-fold flattened sequence, handed onward to the
exporter unchanged. -/
theorem c1_flatten_loop_bound_and_postcondition (ocp : Bool) (shapes : List Shape) :
    flattenLoopCount ocp 5 shapes ≤ 5 ∧
    flattenLoop ocp 5 shapes = (flattenShapes ocp)^[flattenLoopCount ocp 5 shapes] shapes ∧
    ((flattenLoop ocp 5 shapes).any (looksLikeCompound ocp) = false ∨
      flattenLoopCount ocp 5 shapes = 5) ∧
    (shapes.any (looksLikeCompound ocp) = false → flattenLoop ocp 5 shapes = shapes) :=
  ⟨flattenLoopCount_le ocp 5 shapes,
   flattenLoop_eq_iterate ocp 5 shapes,
   flattenLoop_post ocp 5 shapes,
   fun h => by unfold flattenLoop; rw [h]; simp⟩

theorem c1_flatten_loop_witness :
    flattenLoopCount true 5 [sampleCompound, sampleSolid] ≤ 5 ∧
      flattenLoop true 5 [sampleSolid] = [sampleSolid] :=
  ⟨(c1_flatten_loop_bound_and_postcondition true [sampleCompound, sampleSolid]).1,
   (c1_flatten_loop_bound_and_postcondition true [sampleSolid]).2.2.2 (by decide)⟩

/-- A stub handle exposing an empty `objects` attribute and no solid
enumeration affordances. -/
def emptyObjStub : Shape := .mk none sampleSolidTopo (some []) none none

/-- Claim C8, counterexample: the claim as frozen says the contents of an
exposed `objects` attribute replace the element unconditionally, but for a
handle with `objects = []` the truthiness guard of `_normalize_cad_objects`
(`isinstance(objs, (list, tuple)) and objs`) is falsy, so the element is kept
instead of being replaced by the empty contents. -/
theorem c8_normalize_empty_objects_counterexample :
    emptyObjStub.objects = some [] ∧
    normalizeCadObjects [emptyObjStub] = [emptyObjStub] ∧
    normalizeCadObjects [emptyObjStub] ≠ [] :=
  ⟨rfl, rfl, fun h => List.noConfusion h⟩

/-- Claim C8 (amended): an element of the normalizer's input that exposes a
*non-empty* `objects` container attribute is replaced by exactly its contents
— verbatim and in order, with no recursive re-normalization — and in
particular a one-element sequence whose element exposes `objects = [h1, h2]`
normalizes to `[h1, h2]`; an element exposing an *empty* `objects` attribute
is not replaced by the empty contents: it falls through to the solid
enumeration checks and, lacking those affordances, is kept unchanged. -/
theorem c8_normalize_objects_expansion :
    (∀ (s : Shape) (objs : List Shape), s.objects = some objs → objs ≠ [] →
      normalizeCadObjects [s] = objs) ∧
    (∀ (s h1 h2 : Shape), s.objects = some [h1, h2] →
      normalizeCadObjects [s] = [h1, h2]) ∧
    (∀ (s : Shape), s.objects = some [] → s.solidsUpper = none →
      s.solidsLower = none → normalizeCadObjects [s] = [s]) := by
  have base : ∀ (s : Shape) (objs : List Shape), s.objects = some objs → objs ≠ [] →
      normalizeCadObjects [s] = objs := by
    intro s objs hobj hne
    have h1 : normalizeCadObjects [s] = normalizeOne s ++ [] := rfl
    rw [h1, List.append_nil]
    unfold normalizeOne
    rw [hobj]
    cases objs with
    | nil => exact absurd rfl hne
    | cons a l => simp
  refine ⟨base, fun s h1 h2 hobj => base s [h1, h2] hobj (by simp), ?_⟩
  intro s hobj hsu hsl
  have h1 : normalizeCadObjects [s] = normalizeOne s ++ [] := rfl
  rw [h1, List.append_nil]
  unfold normalizeOne
  rw [hobj, hsu, hsl]
  rfl

/-- A stub handle exposing `objects = [h1, h2]`. -/
def stubContainer : Shape :=
  .mk none sampleSolidTopo (some [sampleSolid, sampleCompound]) none none

theorem c8_normalize_objects_witness :
    normalizeCadObjects [stubContainer] = [sampleSolid, sampleCompound] :=
  c8_normalize_objects_expansion.2.1 stubContainer sampleSolid sampleCompound rfl

/-- Claim C4: Parsing the exporter literal
`var x = { name: "a", parts: [ {color: "#fff",}, ], };` through the staged
transforms of `_parse_js_object_literal` (prologue strip, trailing-semicolon
strip, brace-span extraction, bare-key quoting, trailing-comma removal,
strict JSON parse) yields the document
`{"name": "a", "parts": [{"color": "#fff"}]}`. -/
theorem c4_parse_literal_example :
    parseJsObjectLiteral
        "var x = \x7b name: \"a\", parts: [ \x7bcolor: \"#fff\",\x7d, ], \x7d;" =
      some (Json.obj [("name", Json.str "a"),
        ("parts", Json.arr [Json.obj [("color", Json.str "#fff")]])]) := by
  rfl

/-- Claim C9: The bare-key-quoting regex corrupts a key-like substring inside a
string value: on `{ name: "my foo: bar" }` it rewrites the *content* of the
string `"my foo: bar"` (inserting quotes around `foo`), after which strict
JSON parsing fails — while the same text with only its genuine key quoted
would parse to a document with the string value intact. -/
theorem c9_quoting_corrupts_string_value :
    quoteBareKeys ("\x7b name: \"my foo: bar\" \x7d".toList) =
      "\x7b \"name\": \"my \"foo\": bar\" \x7d".toList ∧
    parseJsObjectLiteral "\x7b name: \"my foo: bar\" \x7d" = none ∧
    jsonLoads "\x7b \"name\": \"my foo: bar\" \x7d".toList =
      some (Json.obj [("name", Json.str "my foo: bar")]) :=
  ⟨rfl, rfl, rfl⟩

/-- Claim C6: When the backend resolver reports no geometry-import capability
(`_try_import_builders()` returns `(None, None)`), conversion raises the
dependency error naming the missing backends, invokes the exporter zero times
(nothing is retried) and writes no output file. -/
theorem c6_no_backend_dependency_error (env : ConvEnv)
    (inputPath outputPath : String) (modelName color : Option String)
    (h : env.builders = none) :
    (convertStepToJson env inputPath outputPath modelName color).result =
      .error (.noImporter
        "No CAD importer found. Please install either 'build123d' or 'cadquery'.") ∧
    (convertStepToJson env inputPath outputPath modelName color).exporterCalls = [] ∧
    (convertStepToJson env inputPath outputPath modelName color).fileWrites = [] := by
  unfold convertStepToJson
  rw [h]
  exact ⟨rfl, rfl, rfl⟩

/-- An environment with both backend probes failed. -/
def envNoBackend : ConvEnv :=
  { builders := none
    tessellateAvailable := true
    ocpAvail := true
    exporter := ⟨fun _ _ _ _ => .ok ""⟩ }

theorem c6_no_backend_witness :
    (convertStepToJson envNoBackend "in.step" "out.json" none none).result =
      .error (.noImporter
        "No CAD importer found. Please install either 'build123d' or 'cadquery'.") ∧
    (convertStepToJson envNoBackend "in.step" "out.json" none none).fileWrites = [] :=
  ⟨(c6_no_backend_dependency_error envNoBackend "in.step" "out.json" none none rfl).1,
   (c6_no_backend_dependency_error envNoBackend "in.step" "out.json" none none rfl).2.2⟩

/-- Claim C7: When import, normalization and flattening yield zero shapes —
in particular when the backend returns `None` or an empty sequence —
conversion raises the empty-input error before the exporter is ever invoked,
and writes no output file. -/
theorem c7_empty_input_error (env : ConvEnv) (f : String → ImportedObj)
    (inputPath outputPath : String) (modelName color : Option String)
    (himp : env.builders = some f) (ht : env.tessellateAvailable = true) :
    (flattenLoop env.ocpAvail 5 (normalizeCadObjects (toSequence (f inputPath))) = [] →
      (convertStepToJson env inputPath outputPath modelName color).result =
        .error (.noShapes ("No shapes found in input file: " ++ inputPath)) ∧
      (convertStepToJson env inputPath outputPath modelName color).exporterCalls = [] ∧
      (convertStepToJson env inputPath outputPath modelName color).fileWrites = []) ∧
    (f inputPath = .nothing ∨ f inputPath = .seq [] →
      flattenLoop env.ocpAvail 5 (normalizeCadObjects (toSequence (f inputPath))) = []) := by
  constructor
  · intro h0
    unfold convertStepToJson
    rw [himp, ht]
    simp only [Bool.not_true, Bool.false_eq_true, if_false, h0]
    exact ⟨rfl, rfl, rfl⟩
  · intro hf
    have hseq : toSequence (f inputPath) = [] := by
      rcases hf with hf | hf <;> rw [hf] <;> rfl
    rw [hseq]
    rfl

/-- An environment whose backend imports an empty sequence. -/
def envEmptyImport : ConvEnv :=
  { builders := some (fun _ => .seq [])
    tessellateAvailable := true
    ocpAvail := true
    exporter := ⟨fun _ _ _ _ => .ok ""⟩ }

theorem c7_empty_input_witness :
    (convertStepToJson envEmptyImport "in.step" "out.json" none none).result =
      .error (.noShapes ("No shapes found in input file: " ++ "in.step")) ∧
    (convertStepToJson envEmptyImport "in.step" "out.json" none none).exporterCalls = [] ∧
    (convertStepToJson envEmptyImport "in.step" "out.json" none none).fileWrites = [] :=
  (c7_empty_input_error envEmptyImport (fun _ => .seq []) "in.step" "out.json"
      none none rfl rfl).1
    ((c7_empty_input_error envEmptyImport (fun _ => .seq []) "in.step" "out.json"
      none none rfl rfl).2 (Or.inr rfl))

theorem tryExportBoth_trace (E : ExporterM) (k : Nat) (ss : List Shape)
    (ns : List String) : ∀ p ∈ (tryExportBoth E k ss ns).2, p = (ss, ns) := by
  unfold tryExportBoth
  split
  · simp
  · split <;> simp
  · simp

theorem tryExportBoth_trace_len (E : ExporterM) (k : Nat) (ss : List Shape)
    (ns : List String) : (tryExportBoth E k ss ns).2.length ≤ 2 := by
  unfold tryExportBoth
  split
  · simp
  · split <;> simp
  · simp

theorem exportRetryPass_trace_mem (E : ExporterM) (ocp : Bool) (base : String)
    (shapes : List Shape) (msg : String) (tr : List (List Shape × List String))
    (htr : ∀ q ∈ tr, q = (shapes, mkNames base shapes.length)) :
    ∀ p ∈ (exportRetryPass E ocp base shapes msg tr).2.1,
      p = (shapes, mkNames base shapes.length) ∨
      p = ((shapes.map (explodeCompoundToSupported ocp)).flatten,
        mkNames base ((shapes.map (explodeCompoundToSupported ocp)).flatten).length) := by
  intro p hp
  revert hp
  unfold exportRetryPass
  split
  · split
    · rename_i c tr2 h2
      intro hp
      rcases List.mem_append.mp hp with hp | hp
      · exact Or.inl (htr p hp)
      · have := tryExportBoth_trace E tr.length
          ((shapes.map (explodeCompoundToSupported ocp)).flatten)
          (mkNames base ((shapes.map (explodeCompoundToSupported ocp)).flatten).length) p
        rw [h2] at this
        exact Or.inr (this hp)
    · rename_i m2 tr2 h2
      intro hp
      rcases List.mem_append.mp hp with hp | hp
      · exact Or.inl (htr p hp)
      · have := tryExportBoth_trace E tr.length
          ((shapes.map (explodeCompoundToSupported ocp)).flatten)
          (mkNames base ((shapes.map (explodeCompoundToSupported ocp)).flatten).length) p
        rw [h2] at this
        exact Or.inr (this hp)
  · intro hp
    exact Or.inl (htr p hp)

theorem exportWithRetry_trace_mem (E : ExporterM) (ocp : Bool) (base : String)
    (shapes : List Shape) :
    ∀ p ∈ (exportWithRetry E ocp base shapes).2.1,
      p = (shapes, mkNames base shapes.length) ∨
      p = ((shapes.map (explodeCompoundToSupported ocp)).flatten,
        mkNames base ((shapes.map (explodeCompoundToSupported ocp)).flatten).length) := by
  intro p hp
  revert hp
  unfold exportWithRetry
  split
  · rename_i c tr h1
    intro hp
    have := tryExportBoth_trace E 0 shapes (mkNames base shapes.length) p
    rw [h1] at this
    exact Or.inl (this hp)
  · rename_i msg tr h1
    split
    · intro hp
      refine exportRetryPass_trace_mem E ocp base shapes msg tr ?_ p hp
      intro q hq
      have := tryExportBoth_trace E 0 shapes (mkNames base shapes.length) q
      rw [h1] at this
      exact this hq
    · intro hp
      have := tryExportBoth_trace E 0 shapes (mkNames base shapes.length) p
      rw [h1] at this
      exact Or.inl (this hp)

/-- Claim C3: At every exporter invocation — the initial attempt, the
tolerance-free fallback, and both retry attempts — the name list passed
alongside the shape list has the same length, and its entry at position `i`
is exactly `base ++ "_" ++ i`, so position `i` of the (possibly re-exploded)
shape sequence always corresponds to the name `base_i`. -/
theorem c3_names_positional (E : ExporterM) (ocp : Bool) (base : String)
    (shapes : List Shape) :
    ∀ p ∈ (exportWithRetry E ocp base shapes).2.1,
      p.2.length = p.1.length ∧
      ∀ i (hi : i < p.2.length), p.2.get ⟨i, hi⟩ = base ++ "_" ++ toString i := by
  have names_spec : ∀ (ss : List Shape) (p : List Shape × List String),
      p = (ss, mkNames base ss.length) →
      p.2.length = p.1.length ∧
      ∀ i (hi : i < p.2.length), p.2.get ⟨i, hi⟩ = base ++ "_" ++ toString i := by
    intro ss p hp
    subst hp
    refine ⟨by simp [mkNames], ?_⟩
    intro i hi
    simp only [mkNames, List.get_eq_getElem, List.getElem_map]
    rw [List.getElem_range]
  intro p hp
  rcases exportWithRetry_trace_mem E ocp base shapes p hp with h | h
  · exact names_spec shapes p h
  · exact names_spec _ p h

/-- An exporter that succeeds immediately. -/
def okExporter : ExporterM := ⟨fun _ _ _ _ => .ok "dummy"⟩

theorem c3_names_positional_witness :
    ((([sampleSolid], mkNames "m" 1) : List Shape × List String).2.length =
        ([sampleSolid] : List Shape).length) ∧
    (mkNames "m" 1).get ⟨0, by decide⟩ = "m" ++ "_" ++ toString 0 := by
  have hmem : (([sampleSolid], mkNames "m" 1) : List Shape × List String) ∈
      (exportWithRetry okExporter true "m" [sampleSolid]).2.1 :=
    List.Mem.head _
  have h := c3_names_positional okExporter true "m" [sampleSolid] _ hmem
  exact ⟨h.1, h.2 0 (by decide)⟩

theorem exportRetryPass_trace_len (E : ExporterM) (ocp : Bool) (base : String)
    (shapes : List Shape) (msg : String) (tr : List (List Shape × List String)) :
    (exportRetryPass E ocp base shapes msg tr).2.1.length ≤ tr.length + 2 := by
  unfold exportRetryPass
  split
  · split
    · rename_i c tr2 h2
      have h := tryExportBoth_trace_len E tr.length
        ((shapes.map (explodeCompoundToSupported ocp)).flatten)
        (mkNames base ((shapes.map (explodeCompoundToSupported ocp)).flatten).length)
      rw [h2] at h
      simp only [List.length_append] at h ⊢
      omega
    · rename_i m2 tr2 h2
      have h := tryExportBoth_trace_len E tr.length
        ((shapes.map (explodeCompoundToSupported ocp)).flatten)
        (mkNames base ((shapes.map (explodeCompoundToSupported ocp)).flatten).length)
      rw [h2] at h
      simp only [List.length_append] at h ⊢
      omega
  · simp only
    omega

/-- Claim C2: The export adapter performs exactly one recovery pass: if the
initial attempt fails with a message containing `"Compound"`, every element
of the current sequence is re-exploded (classified compound or not), the name
sequence rebuilt, and the export retried once — at most 4 exporter
invocations can ever occur (two calling conventions per attempt, two
attempts).  A failing retry propagates the retry's error, and an empty
re-exploded sequence propagates the original error, unrecovered.  With an
exporter raising an `"Unknown type: Compound"` error on its first invocation
and succeeding on its second, export succeeds with exactly two exporter
invocations. -/
theorem c2_retry_once_semantics (E : ExporterM) (ocp : Bool) (base : String)
    (shapes : List Shape) :
    (exportWithRetry E ocp base shapes).2.1.length ≤ 4 ∧
    (∀ m c,
      (tryExportBoth E 0 shapes (mkNames base shapes.length)).1 = .error m →
      strContainsSub "Compound" m = true →
      ((shapes.map (explodeCompoundToSupported ocp)).flatten).isEmpty = false →
      (tryExportBoth E (tryExportBoth E 0 shapes (mkNames base shapes.length)).2.length
          ((shapes.map (explodeCompoundToSupported ocp)).flatten)
          (mkNames base ((shapes.map (explodeCompoundToSupported ocp)).flatten).length)).1 =
        .ok c →
      (exportWithRetry E ocp base shapes).1 = .ok c) ∧
    (∀ m m2,
      (tryExportBoth E 0 shapes (mkNames base shapes.length)).1 = .error m →
      strContainsSub "Compound" m = true →
      ((shapes.map (explodeCompoundToSupported ocp)).flatten).isEmpty = false →
      (tryExportBoth E (tryExportBoth E 0 shapes (mkNames base shapes.length)).2.length
          ((shapes.map (explodeCompoundToSupported ocp)).flatten)
          (mkNames base ((shapes.map (explodeCompoundToSupported ocp)).flatten).length)).1 =
        .error m2 →
      (exportWithRetry E ocp base shapes).1 = .error m2) ∧
    (∀ m,
      (tryExportBoth E 0 shapes (mkNames base shapes.length)).1 = .error m →
      strContainsSub "Compound" m = true →
      ((shapes.map (explodeCompoundToSupported ocp)).flatten).isEmpty = true →
      (exportWithRetry E ocp base shapes).1 = .error m) ∧
    (∀ m c,
      E.call 0 true shapes (mkNames base shapes.length) = .err m →
      strContainsSub "Compound" m = true →
      ((shapes.map (explodeCompoundToSupported ocp)).flatten).isEmpty = false →
      E.call 1 true ((shapes.map (explodeCompoundToSupported ocp)).flatten)
        (mkNames base ((shapes.map (explodeCompoundToSupported ocp)).flatten).length) =
        .ok c →
      (exportWithRetry E ocp base shapes).1 = .ok c ∧
      (exportWithRetry E ocp base shapes).2.1.length = 2) := by
  refine ⟨?_, ?_, ?_, ?_, ?_⟩
  · unfold exportWithRetry
    split
    · rename_i c tr h1
      have h := tryExportBoth_trace_len E 0 shapes (mkNames base shapes.length)
      rw [h1] at h
      simp only at h ⊢
      omega
    · rename_i msg tr h1
      have h := tryExportBoth_trace_len E 0 shapes (mkNames base shapes.length)
      rw [h1] at h
      simp only at h
      split
      · have h2 := exportRetryPass_trace_len E ocp base shapes msg tr
        omega
      · simp only
        omega
  · intro m c h1 hcomp hne h2
    rcases hfirst : tryExportBoth E 0 shapes (mkNames base shapes.length) with ⟨res, tr⟩
    rw [hfirst] at h1 h2
    simp only at h1 h2
    cases res with
    | ok c0 => exact absurd h1 (by simp)
    | error msg =>
      have hm : msg = m := by simpa using h1
      subst hm
      rcases hsecond : tryExportBoth E tr.length
          ((shapes.map (explodeCompoundToSupported ocp)).flatten)
          (mkNames base ((shapes.map (explodeCompoundToSupported ocp)).flatten).length)
        with ⟨res2, tr2⟩
      rw [hsecond] at h2
      simp only at h2
      cases res2 with
      | error m0 => exact absurd h2 (by simp)
      | ok c0 =>
        have hc : c0 = c := by simpa using h2
        subst hc
        unfold exportWithRetry
        rw [hfirst]
        simp only [hcomp, Bool.or_true, if_true]
        unfold exportRetryPass
        rw [hne]
        simp only [Bool.not_false, if_true]
        rw [hsecond]
  · intro m m2 h1 hcomp hne h2
    rcases hfirst : tryExportBoth E 0 shapes (mkNames base shapes.length) with ⟨res, tr⟩
    rw [hfirst] at h1 h2
    simp only at h1 h2
    cases res with
    | ok c0 => exact absurd h1 (by simp)
    | error msg =>
      have hm : msg = m := by simpa using h1
      subst hm
      rcases hsecond : tryExportBoth E tr.length
          ((shapes.map (explodeCompoundToSupported ocp)).flatten)
          (mkNames base ((shapes.map (explodeCompoundToSupported ocp)).flatten).length)
        with ⟨res2, tr2⟩
      rw [hsecond] at h2
      simp only at h2
      cases res2 with
      | ok c0 => exact absurd h2 (by simp)
      | error m0 =>
        have hc : m0 = m2 := by simpa using h2
        subst hc
        unfold exportWithRetry
        rw [hfirst]
        simp only [hcomp, Bool.or_true, if_true]
        unfold exportRetryPass
        rw [hne]
        simp only [Bool.not_false, if_true]
        rw [hsecond]
  · intro m h1 hcomp hemp
    rcases hfirst : tryExportBoth E 0 shapes (mkNames base shapes.length) with ⟨res, tr⟩
    rw [hfirst] at h1
    simp only at h1
    cases res with
    | ok c0 => exact absurd h1 (by simp)
    | error msg =>
      have hm : msg = m := by simpa using h1
      subst hm
      unfold exportWithRetry
      rw [hfirst]
      simp only [hcomp, Bool.or_true, if_true]
      unfold exportRetryPass
      rw [hemp]
      simp
  · intro m c hcall0 hcomp hne hcall1
    have hfirst : tryExportBoth E 0 shapes (mkNames base shapes.length) =
        (.error m, [(shapes, mkNames base shapes.length)]) := by
      unfold tryExportBoth
      rw [hcall0]
    have hsecond : tryExportBoth E 1
        ((shapes.map (explodeCompoundToSupported ocp)).flatten)
        (mkNames base ((shapes.map (explodeCompoundToSupported ocp)).flatten).length) =
        (.ok c, [((shapes.map (explodeCompoundToSupported ocp)).flatten,
          mkNames base ((shapes.map (explodeCompoundToSupported ocp)).flatten).length)]) := by
      unfold tryExportBoth
      rw [hcall1]
    unfold exportWithRetry
    rw [hfirst]
    simp only [hcomp, Bool.or_true, if_true]
    unfold exportRetryPass
    rw [hne]
    simp only [Bool.not_false, if_true, List.length_cons, List.length_nil]
    rw [hsecond]
    exact ⟨rfl, rfl⟩

/-- An exporter stub raising `"Unknown type: Compound"` on its first
invocation and succeeding on every later one. -/
def stubExporter : ExporterM :=
  ⟨fun k _ _ _ => if k = 0 then .err "Unknown type: Compound" else .ok "done"⟩

theorem c2_retry_once_witness :
    (exportWithRetry stubExporter true "model" [sampleCompound]).1 = .ok "done" ∧
    (exportWithRetry stubExporter true "model" [sampleCompound]).2.1.length = 2 :=
  (c2_retry_once_semantics stubExporter true "model" [sampleCompound]).2.2.2.2
    "Unknown type: Compound" "done" rfl rfl rfl rfl

theorem updateFirst_keys (fs : List (String × Json)) (k : String) (v : Json) :
    (updateFirst fs k v).map Prod.fst = fs.map Prod.fst := by
  induction fs with
  | nil => rfl
  | cons f fs ih =>
    unfold updateFirst
    split
    · simp
    · simp [ih]

theorem updateFirst_find_ne (fs : List (String × Json)) (k k' : String) (v : Json)
    (hne : k' ≠ k) :
    (updateFirst fs k v).find? (fun f => f.1 = k') = fs.find? (fun f => f.1 = k') := by
  induction fs with
  | nil => rfl
  | cons f fs ih =>
    unfold updateFirst
    split
    · rename_i h
      have h1 : ¬(f.1 = k') := fun hc => hne (hc ▸ h)
      simp [List.find?, h1]
    · by_cases hk : f.1 = k' <;> simp [List.find?, hk, ih]

theorem updateFirst_find_self (fs : List (String × Json)) (k : String) (v : Json)
    (hmem : (fs.find? (fun f => f.1 = k)).isSome = true) :
    (updateFirst fs k v).find? (fun f => f.1 = k) = some (k, v) := by
  induction fs with
  | nil => simp [List.find?] at hmem
  | cons f fs ih =>
    unfold updateFirst
    split
    · rename_i h
      simp [List.find?, h]
    · rename_i h
      have h2 : decide (f.1 = k) = false := decide_eq_false h
      simp only [List.find?, h2] at hmem ⊢
      exact ih hmem

theorem overridePart_of_not_obj (col : String) (p : Json)
    (h : ∀ fs, p ≠ Json.obj fs) : overridePart col p = p := by
  cases p
  case obj fields => exact absurd rfl (h fields)
  all_goals rfl

theorem overridePart_of_no_color (col : String) (p : Json)
    (h : hasColorKey p = false) : overridePart col p = p := by
  cases p
  case obj fields =>
    simp only [hasColorKey] at h
    simp only [overridePart, h]
    simp
  all_goals rfl

theorem overridePart_keys (col : String) (p : Json) :
    jKeys (overridePart col p) = jKeys p := by
  cases p
  case obj fields =>
    simp only [overridePart]
    split
    · simp only [jKeys, List.map_map]
      congr 1
      funext f
      by_cases h : f.1 = "color" <;> simp [h]
    · rfl
  all_goals rfl

theorem find_map_upd (col k : String) (fields : List (String × Json)) :
    (fields.map (fun f => if f.1 = "color" then (f.1, Json.str col) else f)).find?
      (fun f => f.1 = k) =
    (fields.find? (fun f => f.1 = k)).map
      (fun f => if f.1 = "color" then (f.1, Json.str col) else f) := by
  induction fields with
  | nil => rfl
  | cons f fs ih =>
    have hfst : ((if f.1 = "color" then (f.1, Json.str col) else f) : String × Json).1 =
        f.1 := by
      split <;> rfl
    simp only [List.map_cons, List.find?, hfst]
    by_cases hk : f.1 = k
    · simp [hk]
    · simp [hk, ih]

theorem jGet_overridePart_color (col : String) (p : Json)
    (h : hasColorKey p = true) :
    jGet (overridePart col p) "color" = some (Json.str col) := by
  cases p
  case obj fields =>
    simp only [hasColorKey] at h
    simp only [overridePart, h, if_true]
    show ((fields.map (fun f => if f.1 = "color" then (f.1, Json.str col) else f)).find?
        (fun f => f.1 = "color")).map Prod.snd = some (Json.str col)
    rw [find_map_upd]
    have hsome : (fields.find? (fun f => decide (f.1 = "color"))).isSome = true := by
      rw [List.find?_isSome]
      simpa using h
    rcases Option.isSome_iff_exists.mp hsome with ⟨f0, hf0⟩
    have hp : f0.1 = "color" := by
      have := List.find?_some hf0
      simpa using this
    rw [hf0]
    simp [hp]
  all_goals simp [hasColorKey] at h

theorem jGet_overridePart_ne (col k : String) (p : Json) (hk : k ≠ "color") :
    jGet (overridePart col p) k = jGet p k := by
  cases p
  case obj fields =>
    simp only [overridePart]
    split
    · show ((fields.map (fun f => if f.1 = "color" then (f.1, Json.str col) else f)).find?
          (fun f => f.1 = k)).map Prod.snd =
        (fields.find? (fun f => f.1 = k)).map Prod.snd
      rw [find_map_upd]
      cases hfind : fields.find? (fun f => decide (f.1 = k)) with
      | none => rfl
      | some f0 =>
        have hp : f0.1 = k := by
          have := List.find?_some hfind
          simpa using this
        have hnc : ¬(f0.1 = "color") := fun hc => hk (hp ▸ hc)
        simp [hnc]
    · rfl
  all_goals rfl

theorem colorApplied_eq (col : String) (data : Json) (hcol : col ≠ "") :
    colorApplied (some col) data =
      match colorPassTry col data with
      | .ok d => d
      | .error _ => data := by
  show (if col = "" then data else
      match colorPassTry col data with
      | .ok d => d
      | .error _ => data) = _
  rw [if_neg hcol]

/-- Claim C5: With a (non-empty) color override `col`, the post-processing step
changes the `color` field only on elements of `parts` that already carry one:
a non-object document is unchanged; the top-level key set is preserved; every
top-level binding other than `parts` is unchanged; a non-array `parts` value
is unchanged; and within an array `parts`, element count is preserved,
elements without a `color` field are unchanged (in particular they stay
without one), and elements with a `color` field keep their key set and every
other field, with only the `color` value replaced by `col`. -/
theorem c5_color_override_frame (col : String) (D : Json) (hcol : col ≠ "") :
    ((∀ fs, D ≠ Json.obj fs) → colorApplied (some col) D = D) ∧
    jKeys (colorApplied (some col) D) = jKeys D ∧
    (∀ k, k ≠ "parts" → jGet (colorApplied (some col) D) k = jGet D k) ∧
    (∀ v, jGet D "parts" = some v → (∀ ps, v ≠ Json.arr ps) →
      jGet (colorApplied (some col) D) "parts" = some v) ∧
    (∀ ps, jGet D "parts" = some (Json.arr ps) →
      ∃ qs, jGet (colorApplied (some col) D) "parts" = some (Json.arr qs) ∧
        qs.length = ps.length ∧
        ∀ i (hi : i < ps.length) (hq : i < qs.length),
          (hasColorKey (ps.get ⟨i, hi⟩) = false → qs.get ⟨i, hq⟩ = ps.get ⟨i, hi⟩) ∧
          (hasColorKey (ps.get ⟨i, hi⟩) = true →
            jKeys (qs.get ⟨i, hq⟩) = jKeys (ps.get ⟨i, hi⟩) ∧
            jGet (qs.get ⟨i, hq⟩) "color" = some (Json.str col) ∧
            ∀ k, k ≠ "color" → jGet (qs.get ⟨i, hq⟩) k = jGet (ps.get ⟨i, hi⟩) k)) := by
  cases D with
  | obj fields =>
    rcases hparts : jGet (Json.obj fields) "parts" with _ | v
    · have hres : colorApplied (some col) (Json.obj fields) = Json.obj fields := by
        rw [colorApplied_eq col _ hcol]
        simp only [colorPassTry, hparts]
      rw [hres]
      refine ⟨fun h => absurd rfl (h fields), rfl, fun k _ => rfl, ?_, ?_⟩
      · intro v hv _
        exact Option.noConfusion hv
      · intro ps hps
        exact Option.noConfusion hps
    · cases v with
      | arr ps =>
        have hres : colorApplied (some col) (Json.obj fields) =
            Json.obj (updateFirst fields "parts"
              (Json.arr (ps.map (overridePart col)))) := by
          rw [colorApplied_eq col _ hcol]
          simp only [colorPassTry, hparts]
        have hsome : (fields.find? (fun f => f.1 = "parts")).isSome = true := by
          simp only [jGet] at hparts
          cases hfind : fields.find? (fun f => decide (f.1 = "parts")) with
          | none => rw [hfind] at hparts; cases hparts
          | some f0 => rfl
        rw [hres]
        refine ⟨fun h => absurd rfl (h fields), ?_, ?_, ?_, ?_⟩
        · show (updateFirst fields "parts" _).map Prod.fst = fields.map Prod.fst
          exact updateFirst_keys fields "parts" _
        · intro k hk
          show ((updateFirst fields "parts" _).find? (fun f => f.1 = k)).map Prod.snd =
            (fields.find? (fun f => f.1 = k)).map Prod.snd
          rw [updateFirst_find_ne fields "parts" k _ hk]
        · intro v hv hne
          injection hv with hv2
          exact absurd hv2.symm (hne ps)
        · intro ps0 hps
          injection hps with hps2
          injection hps2 with hps3
          subst hps3
          refine ⟨ps.map (overridePart col), ?_, by simp, ?_⟩
          · show ((updateFirst fields "parts"
                (Json.arr (ps.map (overridePart col)))).find?
                (fun f => f.1 = "parts")).map Prod.snd =
              some (Json.arr (ps.map (overridePart col)))
            rw [updateFirst_find_self fields "parts" _ hsome]
            rfl
          · intro i hi hq
            have hqe : (ps.map (overridePart col)).get ⟨i, hq⟩ =
                overridePart col (ps.get ⟨i, hi⟩) := by
              simp [List.get_eq_getElem, List.getElem_map]
            constructor
            · intro hnc
              rw [hqe, overridePart_of_no_color col _ hnc]
            · intro hc
              refine ⟨?_, ?_, ?_⟩
              · rw [hqe]; exact overridePart_keys col _
              · rw [hqe]; exact jGet_overridePart_color col _ hc
              · intro k hk
                rw [hqe]; exact jGet_overridePart_ne col k _ hk
      | str s =>
        have hres : colorApplied (some col) (Json.obj fields) = Json.obj fields := by
          rw [colorApplied_eq col _ hcol]
          simp only [colorPassTry, hparts]
        rw [hres]
        refine ⟨fun h => absurd rfl (h fields), rfl, fun k _ => rfl, ?_, ?_⟩
        · intro v hv _
          rw [hparts]
          exact hv
        · intro ps hps
          injection hps with hps2
          exact Json.noConfusion hps2
      | obj g =>
        have hres : colorApplied (some col) (Json.obj fields) = Json.obj fields := by
          rw [colorApplied_eq col _ hcol]
          simp only [colorPassTry, hparts]
        rw [hres]
        refine ⟨fun h => absurd rfl (h fields), rfl, fun k _ => rfl, ?_, ?_⟩
        · intro v hv _
          rw [hparts]
          exact hv
        · intro ps hps
          injection hps with hps2
          exact Json.noConfusion hps2
      | num n =>
        have hres : colorApplied (some col) (Json.obj fields) = Json.obj fields := by
          rw [colorApplied_eq col _ hcol]
          simp only [colorPassTry, hparts]
        rw [hres]
        refine ⟨fun h => absurd rfl (h fields), rfl, fun k _ => rfl, ?_, ?_⟩
        · intro v hv _
          rw [hparts]
          exact hv
        · intro ps hps
          injection hps with hps2
          exact Json.noConfusion hps2
      | bool b =>
        have hres : colorApplied (some col) (Json.obj fields) = Json.obj fields := by
          rw [colorApplied_eq col _ hcol]
          simp only [colorPassTry, hparts]
        rw [hres]
        refine ⟨fun h => absurd rfl (h fields), rfl, fun k _ => rfl, ?_, ?_⟩
        · intro v hv _
          rw [hparts]
          exact hv
        · intro ps hps
          injection hps with hps2
          exact Json.noConfusion hps2
      | null =>
        have hres : colorApplied (some col) (Json.obj fields) = Json.obj fields := by
          rw [colorApplied_eq col _ hcol]
          simp only [colorPassTry, hparts]
        rw [hres]
        refine ⟨fun h => absurd rfl (h fields), rfl, fun k _ => rfl, ?_, ?_⟩
        · intro v hv _
          rw [hparts]
          exact hv
        · intro ps hps
          injection hps with hps2
          exact Json.noConfusion hps2
  | null =>
    have hres : colorApplied (some col) Json.null = Json.null := by
      rw [colorApplied_eq col _ hcol]
      rfl
    rw [hres]
    refine ⟨fun _ => rfl, rfl, fun k _ => rfl, ?_, ?_⟩
    · intro v hv _
      exact Option.noConfusion hv
    · intro ps hps
      exact Option.noConfusion hps
  | bool b =>
    have hres : colorApplied (some col) (Json.bool b) = Json.bool b := by
      rw [colorApplied_eq col _ hcol]
      rfl
    rw [hres]
    refine ⟨fun _ => rfl, rfl, fun k _ => rfl, ?_, ?_⟩
    · intro v hv _
      exact Option.noConfusion hv
    · intro ps hps
      exact Option.noConfusion hps
  | num n =>
    have hres : colorApplied (some col) (Json.num n) = Json.num n := by
      rw [colorApplied_eq col _ hcol]
      rfl
    rw [hres]
    refine ⟨fun _ => rfl, rfl, fun k _ => rfl, ?_, ?_⟩
    · intro v hv _
      exact Option.noConfusion hv
    · intro ps hps
      exact Option.noConfusion hps
  | str s =>
    have hres : colorApplied (some col) (Json.str s) = Json.str s := by
      rw [colorApplied_eq col _ hcol]
      rfl
    rw [hres]
    refine ⟨fun _ => rfl, rfl, fun k _ => rfl, ?_, ?_⟩
    · intro v hv _
      exact Option.noConfusion hv
    · intro ps hps
      exact Option.noConfusion hps
  | arr xs =>
    have hres : colorApplied (some col) (Json.arr xs) = Json.arr xs := by
      rw [colorApplied_eq col _ hcol]
      rfl
    rw [hres]
    refine ⟨fun _ => rfl, rfl, fun k _ => rfl, ?_, ?_⟩
    · intro v hv _
      exact Option.noConfusion hv
    · intro ps hps
      exact Option.noConfusion hps

/-- A sample document with a `parts` array whose first element carries a
`color` field and whose second does not. -/
def sampleDoc : Json :=
  .obj [("name", .str "m"),
        ("parts", .arr [.obj [("color", .str "#fff"), ("id", .num 1)],
                        .obj [("id", .num 2)]])]

theorem c5_color_override_witness :
    jKeys (colorApplied (some "#123456") sampleDoc) = jKeys sampleDoc ∧
    jGet (colorApplied (some "#123456") sampleDoc) "name" = jGet sampleDoc "name" := by
  have h := c5_color_override_frame "#123456" sampleDoc (by decide)
  exact ⟨h.2.1, h.2.2.1 "name" (by decide)⟩

/-- Claim C10: The color-override pass never surfaces an error to the caller:
with no override (or the falsy empty string) it is skipped outright; with an
override, either the traversal succeeds and conversion proceeds with its
result, or the exception is absorbed and conversion proceeds with the
document unchanged; and entries of `parts` that are not mappings are skipped
unchanged by the traversal's `isinstance` guard. -/
theorem c10_color_pass_absorbs_errors (data : Json) :
    colorApplied none data = data ∧
    colorApplied (some "") data = data ∧
    (∀ col e, col ≠ "" → colorPassTry col data = .error e →
      colorApplied (some col) data = data) ∧
    (∀ col, col ≠ "" →
      (∃ d, colorPassTry col data = .ok d ∧ colorApplied (some col) data = d) ∨
      colorApplied (some col) data = data) ∧
    (∀ col p, (∀ fs, p ≠ Json.obj fs) → overridePart col p = p) := by
  refine ⟨rfl, rfl, ?_, ?_, ?_⟩
  · intro col e hcol herr
    rw [colorApplied_eq col data hcol, herr]
  · intro col hcol
    cases htry : colorPassTry col data with
    | ok d => exact Or.inl ⟨d, rfl, by rw [colorApplied_eq col data hcol, htry]⟩
    | error e => exact Or.inr (by rw [colorApplied_eq col data hcol, htry])
  · intro col p hp
    exact overridePart_of_not_obj col p hp

theorem c10_color_pass_absorbs_witness :
    colorApplied (some "#abc") (Json.obj [("parts", Json.num 3)]) =
      Json.obj [("parts", Json.num 3)] :=
  (c10_color_pass_absorbs_errors (Json.obj [("parts", Json.num 3)])).2.2.1
    "#abc" "TypeError: object is not iterable" (by decide) rfl

end StepToJson
